import Mathlib

/-!
A verification development for the Trade Republic PDF statement reader
(src/readers/traderepublic-pdf.ts) and the monetary-string parser it uses
(src/utils/parse.ts).  The TypeScript code is embedded shallowly: strings
are lists of characters, JavaScript numbers are modelled as exact
rationals, nullable values as Option, and a thrown exception as
Except.error.  Calls to the logging side channel are modelled by counting
the diagnostics a function emits.
-/

namespace ExportRepublic

/-- Strings are modelled as lists of characters. -/
abbrev Str := List Char

/-- Conversion from Lean string literals to the character-list model. -/
def toChars (s : String) : Str := s.toList

/-- The JavaScript whitespace class, restricted to the ASCII whitespace
characters that can occur in the extracted statement text. -/
def isWsChar (c : Char) : Bool :=
  c = ' ' || c = '\t' || c = '\n' || c = '\r' || c = '\x0B' || c = '\x0C'

/-- JavaScript String.prototype.trim. -/
def trimStr (s : Str) : Str :=
  ((s.dropWhile isWsChar).reverse.dropWhile isWsChar).reverse

/-- Tokens of a string: maximal runs of non-whitespace characters.  Used
for the result of splitting a trimmed, non-blank string on the regular
expression of one-or-more whitespace characters. -/
def tokensOf (s : Str) : List Str :=
  let step := fun (p : List Str × Str) (c : Char) =>
    if isWsChar c then
      if p.2 = [] then (p.1, ([] : Str)) else (p.1 ++ [p.2.reverse], ([] : Str))
    else (p.1, c :: p.2)
  let r := s.foldl step ([], [])
  if r.2 = [] then r.1 else r.1 ++ [r.2.reverse]

/-- line.trim().split(on whitespace runs) as JavaScript computes it: a
blank line yields the one-element list holding the empty string. -/
def jsTrimSplit (s : Str) : List Str :=
  let t := trimStr s
  if t = [] then [[]] else tokensOf t

/-- segment.split(on whitespace runs)[0] as JavaScript computes it: the
empty string when the segment is empty or starts with whitespace,
otherwise the maximal non-whitespace first run. -/
def jsFirstTok (s : Str) : Str :=
  match s with
  | [] => []
  | c :: _ => if isWsChar c then [] else s.takeWhile (fun d => !isWsChar d)

/-- Array.prototype.join with a single-space separator. -/
def joinSp : List Str → Str
  | [] => []
  | [x] => x
  | x :: xs => x ++ ' ' :: joinSp xs

/-- JavaScript string.split with separator newline. -/
def splitNl : Str → List Str
  | [] => [[]]
  | c :: rest =>
    if c = '\n' then [] :: splitNl rest
    else
      match splitNl rest with
      | t :: ts => (c :: t) :: ts
      | [] => [[c]]

/-- Array.prototype.join with a newline separator. -/
def joinNl : List Str → Str
  | [] => []
  | [x] => x
  | x :: xs => x ++ '\n' :: joinNl xs

/-- string.replace(pat, empty string) for a plain-string pattern: remove
the first occurrence, identity when the pattern does not occur (and when
the pattern is empty, since removing an empty match changes nothing). -/
def removeFirstStr (pat : Str) : Str → Str
  | [] => []
  | c :: rest =>
    if pat.isPrefixOf (c :: rest) then (c :: rest).drop pat.length
    else c :: removeFirstStr pat rest

/-- The Unicode uppercase-letter class of the month regular expression,
restricted to the Latin-1 repertoire that German month names draw from. -/
def isLuChar (c : Char) : Bool :=
  ('A' ≤ c && c ≤ 'Z') || ('À' ≤ c && c ≤ 'Ö') || ('Ø' ≤ c && c ≤ 'Þ')

/-- The Unicode lowercase-letter class, restricted likewise. -/
def isLlChar (c : Char) : Bool :=
  ('a' ≤ c && c ≤ 'z') || ('ß' ≤ c && c ≤ 'ö') || ('ø' ≤ c && c ≤ 'ÿ')

/-- DAY_PATTERN: one or two digits spanning the whole token. -/
def isDayTok (t : Str) : Bool :=
  (t.length = 1 || t.length = 2) && t.all Char.isDigit

/-- MONTH_PATTERN: an uppercase letter, two or three lowercase letters,
and an optional trailing dot, spanning the whole token. -/
def isMonthTok (t : Str) : Bool :=
  match t with
  | [] => false
  | u :: rest =>
    isLuChar u &&
      (let core := if rest.getLast? = some '.' then rest.dropLast else rest
       (core.length = 2 || core.length = 3) && core.all isLlChar)

/-- YEAR_PATTERN: exactly four digits spanning the whole token. -/
def isYearTok (t : Str) : Bool :=
  t.length = 4 && t.all Char.isDigit

/-- parseInt on an all-digit token (the only shape the reader feeds it). -/
def intOfDigits (s : Str) : Int :=
  Int.ofNat (s.foldl (fun a c => a * 10 + (c.toNat - '0'.toNat)) 0)

/-- The GERMAN_MONTHS table, mapping each accepted spelling to its
zero-based month ordinal. -/
def GERMAN_MONTHS : List (Str × Nat) :=
  [ (toChars ("Jan"), 0), (toChars ("Jan."), 0)
  , (toChars ("Feb"), 1), (toChars ("Feb."), 1)
  , (toChars ("März"), 2), (toChars ("Mär."), 2)
  , (toChars ("Apr"), 3), (toChars ("Apr."), 3)
  , (toChars ("Mai"), 4), (toChars ("Mai."), 4)
  , (toChars ("Juni"), 5), (toChars ("Jun."), 5)
  , (toChars ("Juli"), 6), (toChars ("Jul."), 6)
  , (toChars ("Aug"), 7), (toChars ("Aug."), 7)
  , (toChars ("Sep"), 8), (toChars ("Sept."), 8)
  , (toChars ("Okt"), 9), (toChars ("Okt."), 9)
  , (toChars ("Nov"), 10), (toChars ("Nov."), 10)
  , (toChars ("Dez"), 11), (toChars ("Dez."), 11) ]

/-- Object-key lookup in the GERMAN_MONTHS table. -/
def lookupMonth (m : Str) : Option Nat :=
  GERMAN_MONTHS.lookup m

/-- The value new Date(year, month, day) is built from: the numeric
year, the zero-based month ordinal, and the day of month. -/
structure SimpleDate where
  year : Int
  month : Nat
  day : Int
deriving DecidableEq

/-- toJSDate: converts the matched date tokens to a date value, throwing
(modelled as Except.error) when the month token is absent from the
GERMAN_MONTHS table. -/
def toJSDate (yearStr monthStr dayStr : Str) : Except Str SimpleDate :=
  match lookupMonth monthStr with
  | some m => .ok ⟨intOfDigits yearStr, m, intOfDigits dayStr⟩
  | none => .error (toChars ("Unknown German month: ") ++ monthStr)

/-!
MONEY_PATTERN.  The regular expression is
minus? digits+ (dot digit digit digit)* (comma digit digit)? ws* euro.
For this pattern a greedy maximal-munch scan coincides with the
JavaScript backtracking semantics: every continuation of each quantifier
begins with a character class disjoint from the one the quantifier
consumes, so relinquishing characters can never turn a failure into a
match.
-/

/-- Length consumed by the maximal run of thousands groups
(dot digit digit digit). -/
def thousandsLen : Str → Nat
  | '.' :: a :: b :: c :: rest =>
    if a.isDigit && b.isDigit && c.isDigit then 4 + thousandsLen rest else 0
  | _ => 0

/-- Length of a MONEY_PATTERN match anchored at the start of the string,
or none when no match starts here. -/
def moneyMatchLen (s : Str) : Option Nat :=
  let p := match s with
    | '-' :: r => (1, r)
    | _ => (0, s)
  let negLen := p.1
  let s1 := p.2
  let d := (s1.takeWhile Char.isDigit).length
  if d = 0 then none
  else
    let s2 := s1.drop d
    let t := thousandsLen s2
    let s3 := s2.drop t
    let q := match s3 with
      | ',' :: a :: b :: r => if a.isDigit && b.isDigit then (3, r) else (0, s3)
      | _ => (0, s3)
    let decLen := q.1
    let s4 := q.2
    let w := (s4.takeWhile isWsChar).length
    match s4.drop w with
    | c :: _ => if c = '€' then some (negLen + d + t + decLen + w + 1) else none
    | [] => none

/-- Global scan of segment.match(MONEY_PATTERN): leftmost non-overlapping
matches, resuming right after each match. -/
def moneyScanAux : Nat → Str → List Str
  | 0, _ => []
  | _ + 1, [] => []
  | fuel + 1, c :: rest =>
    match moneyMatchLen (c :: rest) with
    | some n => ((c :: rest).take n) :: moneyScanAux fuel ((c :: rest).drop n)
    | none => moneyScanAux fuel rest

/-- All MONEY_PATTERN matches of a segment, in order. -/
def moneyScan (s : Str) : List Str := moneyScanAux s.length s

/-- JavaScript parseFloat on the decimal fragment: optional sign, an
integer part, and an optional fraction, reading the longest valid prefix;
none models NaN.  Exponent notation and Infinity never reach this parser
from the statement reader and are omitted. -/
def jsParseFloat (s : Str) : Option ℚ :=
  let p := match s with
    | '-' :: r => ((-1 : ℚ), r)
    | '+' :: r => ((1 : ℚ), r)
    | _ => ((1 : ℚ), s)
  let sgn := p.1
  let s1 := p.2
  let intPart := s1.takeWhile Char.isDigit
  let s2 := s1.drop intPart.length
  let fracPart := match s2 with
    | '.' :: r => r.takeWhile Char.isDigit
    | _ => ([] : Str)
  if intPart = [] ∧ fracPart = [] then none
  else
    some (sgn * (((intOfDigits intPart : Int) : ℚ) +
      ((intOfDigits fracPart : Int) : ℚ) / ((10 : ℚ) ^ fracPart.length)))

/-- string.replace with a comma pattern: replace the first comma, if
any, by a decimal dot. -/
def replaceFirstComma : Str → Str
  | [] => []
  | c :: r => if c = ',' then '.' :: r else c :: replaceFirstComma r

/-- parseAmountEU from src/utils/parse.ts, specialised to string input:
strip the euro sign, plus signs and whitespace, special-case the zero and
Free spellings, then drop the thousands dots, turn the first comma into a
decimal dot and run parseFloat. -/
def parseAmountEU (s : Str) : Option ℚ :=
  let s1 := s.filter (fun c => !(c = '€' || c = '+' || isWsChar c))
  if s1 = [] then none
  else if s1 = toChars ("0") ∨ s1 = toChars ("0,00") ∨ s1 = toChars ("0.00") ∨
      s1 = toChars ("Free") then some 0
  else
    let s2 := s1.filter (fun c => !(c = '.'))
    jsParseFloat (replaceFirstComma s2)

/-! Vocabularies of the reader (configuration constants of the class). -/

/-- TRANSACTION_TYPES_IN, the typically-incoming category vocabulary. -/
def TRANSACTION_TYPES_IN : List Str :=
  [ toChars ("Erträge"), toChars ("Überweisung"), toChars ("Zinszahlung")
  , toChars ("Prämie"), toChars ("Steuern"), toChars ("Empfehlung") ]

/-- TRANSACTION_TYPES_OUT, the typically-outgoing category vocabulary. -/
def TRANSACTION_TYPES_OUT : List Str :=
  [ toChars ("Handel"), toChars ("Kartentransaktion"), toChars ("Geschenk") ]

/-- The ALL_TYPES list built by processTransactions: incoming first. -/
def ALL_TYPES : List Str := TRANSACTION_TYPES_IN ++ TRANSACTION_TYPES_OUT

/-- BALANCE_EPSILON. -/
def BALANCE_EPSILON : ℚ := 1 / 100

/-- HEADER_TRANSACTIONS, the ledger table header. -/
def HEADER_TRANSACTIONS : Str :=
  toChars ("DATUM TYP BESCHREIBUNG ZAHLUNGSEINGANG ZAHLUNGSAUSGANG SALDO")

/-- HEADER_ACCOUNT. -/
def HEADER_ACCOUNT : Str :=
  toChars ("PRODUKT ANFANGSSALDO ZAHLUNGSEINGANG ZAHLUNGSAUSGANG ENDSALDO")

/-- HEADER_CASH. -/
def HEADER_CASH : Str :=
  toChars ("DATUM ZAHLUNGSART GELDMARKTFONDS STÜCK KURS PRO STÜCK BETRAG")

/-- The headers list of the reader instance. -/
def HEADERS : List Str := [HEADER_ACCOUNT, HEADER_TRANSACTIONS, HEADER_CASH]

/-- CHAPTER_ACCOUNT_HOLDER, the sentinel initial chapter name. -/
def CHAPTER_ACCOUNT_HOLDER : Str := toChars ("KONTOINHABER")

/-- CHAPTER_TRANSACTIONS_OVERVIEW, the ledger chapter name. -/
def CHAPTER_TRANSACTIONS_OVERVIEW : Str := toChars ("UMSATZÜBERSICHT")

/-- CHAPTER_NOTES. -/
def CHAPTER_NOTES : Str := toChars ("HINWEISE ZUM KONTOAUSZUG")

/-- The chapters list of the reader instance (the sentinel holder chapter
is deliberately not part of it). -/
def CHAPTERS : List Str :=
  [ toChars ("KONTOÜBERSICHT"), CHAPTER_TRANSACTIONS_OVERVIEW
  , toChars ("BARMITTELÜBERSICHT"), toChars ("TRANSAKTIONSÜBERSICHT")
  , CHAPTER_NOTES ]

/-! The transaction record and the segment parser. -/

/-- ParsedPdfTransaction.  The type field is always the string produced
by findTransactionType; received and spent are nullable amounts; a
missing description is null. -/
structure ParsedPdfTransaction where
  date : SimpleDate
  type : Str
  description : Option Str
  received : Option ℚ
  spent : Option ℚ
  balance : ℚ
deriving DecidableEq

/-- findTransactionType: the first vocabulary entry that prefixes the
segment, else the first whitespace-delimited word of the segment. -/
def findTransactionType (segment : Str) (allTypes : List Str) : Str :=
  match allTypes.find? (fun t => t.isPrefixOf segment) with
  | some t => t
  | none => jsFirstTok segment

/-- determineTransactionDirection: with a previous balance, incoming
exactly when the balance strictly increased; for the first transaction,
incoming exactly when the category is in the incoming vocabulary. -/
def determineTransactionDirection (previousBalance : Option ℚ)
    (currentBalance : ℚ) (type? : Option Str) : Bool :=
  match previousBalance with
  | some p => currentBalance > p
  | none =>
    match type? with
    | some t => t ∈ TRANSACTION_TYPES_IN
    | none => false

/-- x or-else zero, the JavaScript pattern value or zero applied to a
nullable number (zero and null both map to zero). -/
def orZero : Option ℚ → ℚ
  | some x => x
  | none => 0

/-- extractDescription: remove the first occurrence of the category
token (when non-empty) and trim, then remove each monetary match once,
and trim the result. -/
def extractDescription (segment : Str) (type : Str)
    (moneyMatches : List Str) : Str :=
  let d0 := if type = [] then segment else trimStr (removeFirstStr type segment)
  trimStr (moneyMatches.foldl (fun d m => removeFirstStr m d) d0)

/-- parseTransactionSegment: find the monetary matches and the category;
with at least two matches take the last as balance and the second-to-last
as amount, classify the direction and populate exactly one amount column
and the description; otherwise return the record with null amounts, null
description and balance zero.  The function always returns a record. -/
def parseTransactionSegment (segment : Str) (date : SimpleDate)
    (allTypes : List Str) (previousBalance : Option ℚ) :
    ParsedPdfTransaction :=
  let moneyMatches := moneyScan segment
  let type := findTransactionType segment allTypes
  if 2 ≤ moneyMatches.length then
    let balance := orZero (parseAmountEU (moneyMatches.getD (moneyMatches.length - 1) []))
    let amount := orZero (parseAmountEU (moneyMatches.getD (moneyMatches.length - 2) []))
    let isIncome := determineTransactionDirection previousBalance balance (some type)
    { date := date
      type := type
      description := some (extractDescription segment type moneyMatches)
      received := if isIncome then some amount else none
      spent := if isIncome then none else some amount
      balance := balance }
  else
    { date := date, type := type, description := none
      received := none, spent := none, balance := 0 }

/-- validateBalance, modelled as the number of diagnostics it emits on
the logging channel: one when a previous balance exists and the asserted
balance differs from previous plus received minus spent by more than
BALANCE_EPSILON, zero otherwise.  The record itself is not touched. -/
def validateBalance (t : ParsedPdfTransaction)
    (previousBalance : Option ℚ) : Nat :=
  match previousBalance with
  | none => 0
  | some p =>
    let expected := p + orZero t.received - orZero t.spent
    if BALANCE_EPSILON < |expected - t.balance| then 1 else 0

/-! The date anchor scanner. -/

/-- DateParseResult. -/
structure DateParseResult where
  date : SimpleDate
  nextIndex : Nat
  restOfLine : Option Str
deriving DecidableEq

/-- tryParseDate: recognise a date anchored at the given index, in the
two-line day-month / year-and-leftover layout or the three-line layout.
A thrown unknown-month error surfaces as Except.error. -/
def tryParseDate (lines : List Str) (index : Nat) :
    Except Str (Option DateParseResult) :=
  if index < lines.length then
    match jsTrimSplit (lines.getD index []) with
    | [day, month] =>
      if isDayTok day then
        if isMonthTok month && decide (index + 1 < lines.length) then
          match jsTrimSplit (lines.getD (index + 1) []) with
          | year :: rest =>
            if isYearTok year then
              match toJSDate year month day with
              | .ok dt =>
                .ok (some ⟨dt, index + 1,
                  if rest = [] then none else some (joinSp rest)⟩)
              | .error e => .error e
            else .ok none
          | [] => .ok none
        else .ok none
      else .ok none
    | [day] =>
      if isDayTok day && decide (index + 2 < lines.length) then
        let month := trimStr (lines.getD (index + 1) [])
        let year := trimStr (lines.getD (index + 2) [])
        if isMonthTok month && isYearTok year then
          match toJSDate year month day with
          | .ok dt => .ok (some ⟨dt, index + 3, none⟩)
          | .error e => .error e
        else .ok none
      else .ok none
    | _ => .ok none
  else .ok none

/-! The transaction table processor. -/

/-- The body of the collection loop of processTransactions, with a fuel
argument for structural recursion; the wrapper collectRest supplies fuel
equal to the remaining line count, so the fuel runs out exactly when the
index leaves the line list. -/
def collectRestAux (lines : List Str) : Nat → Nat → Except Str (List Str × Nat)
  | 0, j => .ok ([], j)
  | fuel + 1, j =>
    if j < lines.length then
      match tryParseDate lines j with
      | .error e => .error e
      | .ok (some _) => .ok ([], j)
      | .ok none =>
        match collectRestAux lines fuel (j + 1) with
        | .error e => .error e
        | .ok (rest, fj) => .ok (lines.getD j [] :: rest, fj)
    else .ok ([], j)

/-- The collection loop of processTransactions: gather lines from index
j until the next recognised date anchor or the end, propagating a thrown
unknown-month error from the scan in the loop condition. -/
def collectRest (lines : List Str) (j : Nat) :
    Except Str (List Str × Nat) :=
  collectRestAux lines (lines.length - j) j

/-- The lines a transaction segment is joined from: the leftover text of
the date anchor, when present, prefixed to the collected lines. -/
def restWithLeftover (leftover : Option Str) (restLines : List Str) : List Str :=
  match leftover with
  | some r => r :: restLines
  | none => restLines

/-- The main loop of processTransactions.  The accumulator carries the
transactions list and the running count of balance diagnostics; fuel
bounds the iteration count (the scan index grows strictly, so a fuel of
length plus one is never exhausted). -/
def processTransactionsAux (allTypes : List Str) (lines : List Str)
    (prev : Option ℚ) (acc : List ParsedPdfTransaction) (diag : Nat)
    (i : Nat) : Nat → Except Str (List ParsedPdfTransaction × Nat)
  | 0 => .ok (acc, diag)
  | fuel + 1 =>
    if i < lines.length then
      match tryParseDate lines i with
      | .error e => .error e
      | .ok none => processTransactionsAux allTypes lines prev acc diag (i + 1) fuel
      | .ok (some d) =>
        match collectRest lines d.nextIndex with
        | .error e => .error e
        | .ok (restLines, j) =>
          let t := parseTransactionSegment
            (joinSp (restWithLeftover d.restOfLine restLines)) d.date allTypes prev
          processTransactionsAux allTypes lines (some t.balance)
            (acc ++ [t]) (diag + validateBalance t prev) j fuel
    else .ok (acc, diag)

/-- processTransactions: skip a leading ledger header line, then run the
scan loop from there with no previous balance.  The result also carries
the number of balance diagnostics emitted; a thrown unknown-month error
escapes the whole loop (and, in the TypeScript caller chain, the whole
parse call), discarding the accumulated transactions. -/
def processTransactions (lines : List Str) :
    Except Str (List ParsedPdfTransaction × Nat) :=
  let startIndex := if lines.getD 0 [] = HEADER_TRANSACTIONS then 1 else 0
  processTransactionsAux ALL_TYPES lines none [] 0 startIndex (lines.length + 1)

/-! The line sanitizer. -/

/-- EXACT_LINES_TO_REMOVE: the letterhead and footer lines removed by
exact match on the trimmed line. -/
def EXACT_LINES_TO_REMOVE : List Str :=
  [ toChars ("TRADE REPUBLIC BANK GMBH BRUNNENSTRASSE 19-21 10119 BERLIN")
  , toChars ("Trade Republic Bank GmbH")
  , toChars ("Brunnenstraße 19-21")
  , toChars ("10119 Berlin")
  , toChars ("www.traderepublic.com Sitz der Gesellschaft: Berlin")
  , toChars ("AG Charlottenburg HRB 244347 B")
  , toChars ("Umsatzsteuer-ID DE307510626")
  , toChars ("Geschäftsführer")
  , toChars ("Andreas Torner")
  , toChars ("Gernot Mittendorfer")
  , toChars ("Christian Hecker")
  , toChars ("Thomas Pischke") ]

/-- Consume a literal piece of the pagination pattern. -/
def dropLit (lit s : Str) : Option Str :=
  if lit.isPrefixOf s then some (s.drop lit.length) else none

/-- Consume exactly n digits of the pagination pattern. -/
def dropDigits (n : Nat) (s : Str) : Option Str :=
  if (s.take n).length = n ∧ (s.take n).all Char.isDigit then some (s.drop n)
  else none

/-- Consume one or more digits (maximal run) of the pagination pattern. -/
def dropDigitsPlus (s : Str) : Option Str :=
  let d := s.takeWhile Char.isDigit
  if d = [] then none else some (s.drop d.length)

/-- The anchored PATTERNS_TO_REMOVE test: a generated-at timestamp
followed by page-of-pages pagination, spanning the whole line. -/
def matchesFooterPat (s : Str) : Bool :=
  (do
    let s ← dropLit (toChars ("Erstellt am ")) s
    let s ← dropDigits 2 s
    let s ← dropLit [ '.' ] s
    let s ← dropDigits 2 s
    let s ← dropLit [ '.' ] s
    let s ← dropDigits 4 s
    let s ← dropLit (toChars (", ")) s
    let s ← dropDigits 2 s
    let s ← dropLit [ ':' ] s
    let s ← dropDigits 2 s
    let s ← dropLit [ ':' ] s
    let s ← dropDigits 2 s
    let s ← dropLit (toChars (" Seite ")) s
    let s ← dropDigitsPlus s
    let s ← dropLit (toChars (" von ")) s
    pure (!s.isEmpty && s.all Char.isDigit)).getD false

/-- The filter predicate of removeHeaders: keep a line unless its trimmed
form is a known letterhead line or matches the pagination pattern. -/
def keepLine (line : Str) : Bool :=
  let t := trimStr line
  !(t ∈ EXACT_LINES_TO_REMOVE : Bool) && !matchesFooterPat t

/-- The per-page body of removeHeaders: split into lines, keep the
non-boilerplate ones, join back. -/
def sanitizePage (page : Str) : Str :=
  joinNl ((splitNl page).filter keepLine)

/-- removeHeaders: per page, drop the known boilerplate lines. -/
def removeHeaders (pages : List Str) : List Str :=
  pages.map sanitizePage

/-! The chapter segmenter. -/

/-- The fold state of processChapters: the open chapter name, its
accumulated content, the header-seen flag and the chapters emitted so
far (the callback calls, in order). -/
structure ChapterState where
  currentChapter : Str
  currentContent : List Str
  headerSeen : Bool
  emitted : List (Str × List Str)
deriving DecidableEq

/-- One line of the processChapters scan. -/
def chapterStep (st : ChapterState) (line : Str) : ChapterState :=
  let t := trimStr line
  if t ∈ CHAPTERS then
    { currentChapter := t
      currentContent := []
      headerSeen := false
      emitted :=
        if st.currentContent ≠ [] then
          st.emitted ++ [(st.currentChapter, st.currentContent)]
        else st.emitted }
  else if t ∈ HEADERS then
    if st.headerSeen then st
    else { st with currentContent := st.currentContent ++ [t], headerSeen := true }
  else if t ≠ [] then { st with currentContent := st.currentContent ++ [t] }
  else st

/-- processChapters: flatten the pages into one line stream, run the
stateful scan, and emit the final chapter if non-empty.  The emitted
list models the sequence of callback invocations. -/
def processChapters (pages : List Str) : List (Str × List Str) :=
  let allLines := (pages.map splitNl).flatten
  let fin := allLines.foldl chapterStep
    ⟨CHAPTER_ACCOUNT_HOLDER, [], false, []⟩
  if fin.currentContent ≠ [] then
    fin.emitted ++ [(fin.currentChapter, fin.currentContent)]
  else fin.emitted

/-! Declarative characterisation of the date anchor scanner. -/

/-- The two-line layout shape: the current line trims and splits into
exactly a day token and a month token, and the next line exists and
starts with a four-digit year token, the remaining tokens being the
leftover text. -/
def caseTwoLine (lines : List Str) (index : Nat)
    (day month year : Str) (restToks : List Str) : Prop :=
  index + 1 < lines.length ∧
  jsTrimSplit (lines.getD index []) = [day, month] ∧
  isDayTok day = true ∧ isMonthTok month = true ∧
  jsTrimSplit (lines.getD (index + 1) []) = year :: restToks ∧
  isYearTok year = true

/-- The three-line layout shape: a lone day token, then a lone month
token line, then a lone four-digit year line. -/
def caseThreeLine (lines : List Str) (index : Nat)
    (day month year : Str) : Prop :=
  index + 2 < lines.length ∧
  jsTrimSplit (lines.getD index []) = [day] ∧
  isDayTok day = true ∧
  trimStr (lines.getD (index + 1) []) = month ∧ isMonthTok month = true ∧
  trimStr (lines.getD (index + 2) []) = year ∧ isYearTok year = true

/-! Characterisation of the chapter-content accumulation. -/

/-- The content a chapter body contributes, given the header-seen flag:
the first header line is kept while the flag is down, every later header
line is dropped, other non-empty lines are kept (all trimmed). -/
def dedupT : Bool → List Str → List Str
  | _, [] => []
  | seen, t :: rest =>
    if t ∈ HEADERS then
      if seen then dedupT true rest else t :: dedupT true rest
    else if t ≠ [] then t :: dedupT seen rest
    else dedupT seen rest

/-- The header-seen flag after a chapter body. -/
def seenAfter : Bool → List Str → Bool
  | seen, [] => seen
  | seen, t :: rest => seenAfter (seen || decide (t ∈ HEADERS)) rest

/-- Concrete line list: one three-line date anchor and one segment line. -/
def linesOneTx : List Str :=
  [ toChars ("1"), toChars ("Jan."), toChars ("2021")
  , toChars ("Überweisung Test transaction 100,00 € 100,00 €") ]

/-- The line list of the C4 failing input: a valid first transaction
followed by a date whose month token matches the month shape but is not
a known German month. -/
def linesBadMonth : List Str :=
  [ toChars ("1"), toChars ("Jan."), toChars ("2021")
  , toChars ("Überweisung Test 100,00 € 100,00 €")
  , toChars ("2"), toChars ("Xyz."), toChars ("2021")
  , toChars ("Handel Test 50,00 € 50,00 €") ]

/-- A chapter whose lines hold one header string once and another header
string twice. -/
def linesTwoHeaders : List Str :=
  [ CHAPTER_TRANSACTIONS_OVERVIEW, HEADER_CASH, HEADER_TRANSACTIONS
  , HEADER_TRANSACTIONS, CHAPTER_NOTES, toChars ("x") ]

/-- Body of a concrete ledger chapter holding its header twice. -/
def chapterBody1 : List Str :=
  [HEADER_TRANSACTIONS, toChars ("Row 1"), HEADER_TRANSACTIONS]

/-- Body of a concrete following chapter holding the header once. -/
def chapterBody2 : List Str :=
  [HEADER_TRANSACTIONS, toChars ("Row 2")]

/-- A one-page input with the two concrete chapters. -/
def pagesTwoChapters : List Str :=
  [joinNl ([CHAPTER_TRANSACTIONS_OVERVIEW] ++ chapterBody1 ++
    [CHAPTER_NOTES] ++ chapterBody2)]

/-! Theorems about the embedded reader. -/

/-- C6: for every segment text, date, type vocabulary and previous
balance, the record returned by parseTransactionSegment has at most one
of received and spent populated; the absent one is null. -/
theorem claim_C6 (segment : Str) (date : SimpleDate) (allTypes : List Str)
    (previousBalance : Option ℚ) :
    (parseTransactionSegment segment date allTypes previousBalance).received = none ∨
    (parseTransactionSegment segment date allTypes previousBalance).spent = none := by
  unfold parseTransactionSegment
  dsimp only
  split
  · split
    · exact Or.inr rfl
    · exact Or.inl rfl
  · exact Or.inl rfl

/-- C7: parsing the segment Überweisung Test transaction 100,00 € 100,00 €
with date 2021-01-01 (month ordinal 0) and no prior balance yields the
category Überweisung, description Test transaction, received 100, spent
null and balance 100. -/
theorem claim_C7 :
    parseTransactionSegment
        (toChars ("Überweisung Test transaction 100,00 € 100,00 €"))
        ⟨2021, 0, 1⟩ ALL_TYPES none =
      { date := ⟨2021, 0, 1⟩
        type := toChars ("Überweisung")
        description := some (toChars ("Test transaction"))
        received := some 100
        spent := none
        balance := 100 } := by
  with_unfolding_all rfl

/-- C1: validateBalance emits exactly one diagnostic when a previous
balance p exists and the absolute difference between p plus received
(or zero) minus spent (or zero) and the asserted balance exceeds
BALANCE_EPSILON, and none otherwise; with no previous balance it emits
none; and the processing step appends the parsed record to the result
list unchanged and continues, whatever the validation outcome (the
outcome only contributes to the diagnostic count). -/
theorem claim_C1 :
    (∀ (t : ParsedPdfTransaction) (p : ℚ),
      validateBalance t (some p) =
        if BALANCE_EPSILON < |p + orZero t.received - orZero t.spent - t.balance|
        then 1 else 0) ∧
    (∀ t : ParsedPdfTransaction, validateBalance t none = 0) ∧
    (∀ (allTypes lines : List Str) (prev : Option ℚ)
        (acc : List ParsedPdfTransaction) (diag i fuel : Nat)
        (d : DateParseResult) (restLines : List Str) (j : Nat),
      i < lines.length →
      tryParseDate lines i = .ok (some d) →
      collectRest lines d.nextIndex = .ok (restLines, j) →
      processTransactionsAux allTypes lines prev acc diag i (fuel + 1) =
        processTransactionsAux allTypes lines
          (some (parseTransactionSegment
            (joinSp (restWithLeftover d.restOfLine restLines)) d.date allTypes prev).balance)
          (acc ++ [parseTransactionSegment
            (joinSp (restWithLeftover d.restOfLine restLines)) d.date allTypes prev])
          (diag + validateBalance (parseTransactionSegment
            (joinSp (restWithLeftover d.restOfLine restLines)) d.date allTypes prev) prev)
          j fuel) := by
  refine ⟨fun t p => rfl, fun t => rfl, ?_⟩
  intro allTypes lines prev acc diag i fuel d restLines j hi h1 h2
  conv_lhs => rw [processTransactionsAux]
  rw [if_pos hi]
  simp only [h1, h2]

/-- Witness for C1: the step equation at a concrete four-line input. -/
theorem claim_C1_witness :
    (0 < linesOneTx.length) ∧
    tryParseDate linesOneTx 0 = .ok (some ⟨⟨2021, 0, 1⟩, 3, none⟩) ∧
    collectRest linesOneTx 3 = .ok ([linesOneTx.getD 3 []], 4) ∧
    processTransactionsAux ALL_TYPES linesOneTx none [] 0 0 5 =
      processTransactionsAux ALL_TYPES linesOneTx
        (some (parseTransactionSegment
          (joinSp (restWithLeftover none [linesOneTx.getD 3 []]))
          ⟨2021, 0, 1⟩ ALL_TYPES none).balance)
        ([] ++ [parseTransactionSegment
          (joinSp (restWithLeftover none [linesOneTx.getD 3 []]))
          ⟨2021, 0, 1⟩ ALL_TYPES none])
        (0 + validateBalance (parseTransactionSegment
          (joinSp (restWithLeftover none [linesOneTx.getD 3 []]))
          ⟨2021, 0, 1⟩ ALL_TYPES none) none)
        4 4 :=
  ⟨by decide, rfl, rfl,
    claim_C1.2.2 ALL_TYPES linesOneTx none [] 0 0 4 ⟨⟨2021, 0, 1⟩, 3, none⟩
      [linesOneTx.getD 3 []] 4 (by decide) rfl rfl⟩

/-- With a previous balance, the direction is the decidable comparison
of the balances, whatever the category. -/
theorem direction_some_eq (p cb : ℚ) (ty : Option Str) :
    determineTransactionDirection (some p) cb ty = decide (p < cb) := rfl

/-- With no previous balance, the direction is vocabulary membership of
the category. -/
theorem direction_none_eq (cb : ℚ) (t : Str) :
    determineTransactionDirection none cb (some t) =
      decide (t ∈ TRANSACTION_TYPES_IN) := rfl

/-- C2: with a previous balance, a transaction is classified as inflow
exactly when its balance strictly exceeds the previous one and as
outflow when it is less than or equal, regardless of the category (in
particular a Handel row with a balance increase is inflow); with no
previous balance, inflow exactly when the category is in the incoming
vocabulary.  For a monetarily complete segment the populated column
matches the classification. -/
theorem claim_C2 :
    (∀ (p cb : ℚ) (ty : Option Str),
      determineTransactionDirection (some p) cb ty = true ↔ p < cb) ∧
    (∀ (cb : ℚ) (t : Str),
      determineTransactionDirection none cb (some t) = true ↔
        t ∈ TRANSACTION_TYPES_IN) ∧
    (∀ (seg : Str) (date : SimpleDate) (types : List Str) (p : ℚ),
      2 ≤ (moneyScan seg).length →
      (((parseTransactionSegment seg date types (some p)).received.isSome ↔
          p < (parseTransactionSegment seg date types (some p)).balance) ∧
       ((parseTransactionSegment seg date types (some p)).spent.isSome ↔
          (parseTransactionSegment seg date types (some p)).balance ≤ p))) ∧
    (∀ p cb : ℚ, p < cb →
      determineTransactionDirection (some p) cb (some (toChars ("Handel"))) = true) := by
  refine ⟨?_, ?_, ?_, ?_⟩
  · intro p cb ty
    rw [direction_some_eq]
    exact decide_eq_true_iff
  · intro cb t
    rw [direction_none_eq]
    exact decide_eq_true_iff
  · intro seg date types p h
    simp only [parseTransactionSegment]
    rw [if_pos h]
    dsimp only
    rw [direction_some_eq]
    by_cases hlt : p < orZero (parseAmountEU ((moneyScan seg).getD ((moneyScan seg).length - 1) []))
    · simp [hlt]
    · simp [hlt, le_of_not_lt hlt]
  · intro p cb hp
    rw [direction_some_eq, decide_eq_true_iff]
    exact hp

/-- Witness for C2: the populated-column equivalence at a concrete
outflow segment with previous balance 500, and the Handel inflow
override at concrete balances. -/
theorem claim_C2_witness :
    (2 ≤ (moneyScan (toChars ("Handel Test 236,00 € 264,00 €"))).length ∧
      (((parseTransactionSegment (toChars ("Handel Test 236,00 € 264,00 €"))
          ⟨2021, 3, 21⟩ ALL_TYPES (some 500)).received.isSome ↔
        (500 : ℚ) < (parseTransactionSegment (toChars ("Handel Test 236,00 € 264,00 €"))
          ⟨2021, 3, 21⟩ ALL_TYPES (some 500)).balance) ∧
       ((parseTransactionSegment (toChars ("Handel Test 236,00 € 264,00 €"))
          ⟨2021, 3, 21⟩ ALL_TYPES (some 500)).spent.isSome ↔
        (parseTransactionSegment (toChars ("Handel Test 236,00 € 264,00 €"))
          ⟨2021, 3, 21⟩ ALL_TYPES (some 500)).balance ≤ 500))) ∧
    ((500 : ℚ) < 600 ∧
      determineTransactionDirection (some 500) 600 (some (toChars ("Handel"))) = true) :=
  ⟨⟨by decide,
      claim_C2.2.2.1 (toChars ("Handel Test 236,00 € 264,00 €"))
        ⟨2021, 3, 21⟩ ALL_TYPES 500 (by decide)⟩,
    ⟨by with_unfolding_all decide,
      claim_C2.2.2.2 500 600 (by with_unfolding_all decide)⟩⟩

/-- A segment with fewer than two monetary matches parses to the
degenerate record: null amounts, null description, balance zero. -/
theorem parseTransactionSegment_degenerate (seg : Str) (date : SimpleDate)
    (types : List Str) (prev : Option ℚ)
    (h : (moneyScan seg).length < 2) :
    parseTransactionSegment seg date types prev =
      { date := date, type := findTransactionType seg types
        description := none, received := none, spent := none, balance := 0 } := by
  unfold parseTransactionSegment
  rw [if_neg (by omega)]

/-- C10: a segment with fewer than two monetary substrings still yields
a record, with null received, null spent, null description and balance
zero; the processing step then carries this zero forward as the previous
balance of the next transaction, which uses it for direction
classification and balance validation (concretely, a following Handel
row with a balance increase from zero is classified as received). -/
theorem claim_C10 :
    (∀ (seg : Str) (date : SimpleDate) (types : List Str) (prev : Option ℚ),
      (moneyScan seg).length < 2 →
      parseTransactionSegment seg date types prev =
        { date := date, type := findTransactionType seg types
          description := none, received := none, spent := none, balance := 0 }) ∧
    (∀ (allTypes lines : List Str) (prev : Option ℚ)
        (acc : List ParsedPdfTransaction) (diag i fuel : Nat)
        (d : DateParseResult) (restLines : List Str) (j : Nat),
      i < lines.length →
      tryParseDate lines i = .ok (some d) →
      collectRest lines d.nextIndex = .ok (restLines, j) →
      (moneyScan (joinSp (restWithLeftover d.restOfLine restLines))).length < 2 →
      processTransactionsAux allTypes lines prev acc diag i (fuel + 1) =
        processTransactionsAux allTypes lines (some 0)
          (acc ++ [parseTransactionSegment
            (joinSp (restWithLeftover d.restOfLine restLines)) d.date allTypes prev])
          (diag + validateBalance (parseTransactionSegment
            (joinSp (restWithLeftover d.restOfLine restLines)) d.date allTypes prev) prev)
          j fuel) ∧
    (processTransactions
        [ toChars ("1"), toChars ("Jan."), toChars ("2021")
        , toChars ("Handel pending order")
        , toChars ("2"), toChars ("Jan."), toChars ("2021")
        , toChars ("Handel Test 50,00 € 50,00 €") ] =
      .ok (
        [ { date := ⟨2021, 0, 1⟩, type := toChars ("Handel")
            description := none, received := none, spent := none, balance := 0 }
        , { date := ⟨2021, 0, 2⟩, type := toChars ("Handel")
            description := some (toChars ("Test"))
            received := some 50, spent := none, balance := 50 } ], 0)) := by
  refine ⟨parseTransactionSegment_degenerate, ?_, by with_unfolding_all rfl⟩
  intro allTypes lines prev acc diag i fuel d restLines j hi h1 h2 hlen
  conv_lhs => rw [processTransactionsAux]
  rw [if_pos hi]
  simp only [h1, h2]
  rw [parseTransactionSegment_degenerate _ _ _ _ hlen]

/-- Witness for C10: the degenerate-record equation at a concrete
segment with no monetary match. -/
theorem claim_C10_witness :
    ((moneyScan (toChars ("Handel pending order"))).length < 2) ∧
    parseTransactionSegment (toChars ("Handel pending order")) ⟨2021, 0, 1⟩
        ALL_TYPES none =
      { date := ⟨2021, 0, 1⟩
        type := findTransactionType (toChars ("Handel pending order")) ALL_TYPES
        description := none, received := none, spent := none, balance := 0 } :=
  ⟨by decide,
    claim_C10.1 (toChars ("Handel pending order")) ⟨2021, 0, 1⟩ ALL_TYPES none
      (by decide)⟩

/-- C5 as stated is false on the code: with the trailing monetary
substrings 236,00 € and 264,00 € and prior balance 500, the row is
classified as outflow, so the expected balance 500 − 236 equals the
asserted 264 and validateBalance emits no diagnostic at all, not exactly
one. -/
theorem claim_C5_counterexample :
    moneyScan (toChars ("Handel Test 236,00 € 264,00 €")) =
      [toChars ("236,00 €"), toChars ("264,00 €")] ∧
    (parseTransactionSegment (toChars ("Handel Test 236,00 € 264,00 €"))
      ⟨2021, 3, 21⟩ ALL_TYPES (some 500)).balance = 264 ∧
    validateBalance
      (parseTransactionSegment (toChars ("Handel Test 236,00 € 264,00 €"))
        ⟨2021, 3, 21⟩ ALL_TYPES (some 500)) (some 500) = 0 ∧
    ¬ validateBalance
      (parseTransactionSegment (toChars ("Handel Test 236,00 € 264,00 €"))
        ⟨2021, 3, 21⟩ ALL_TYPES (some 500)) (some 500) = 1 := by
  refine ⟨by decide, by with_unfolding_all rfl, by with_unfolding_all rfl, ?_⟩
  intro h
  have h0 : validateBalance
      (parseTransactionSegment (toChars ("Handel Test 236,00 € 264,00 €"))
        ⟨2021, 3, 21⟩ ALL_TYPES (some 500)) (some 500) = 0 := by
    with_unfolding_all rfl
  omega

/-- C5 amended: a row whose two trailing monetary substrings are
236,00 € and 264,00 €, parsed with a prior running balance of 500.00, is
classified as outflow with spent 236; the balance-continuity check then
passes, since 500 − 236 equals 264, so no diagnostic is emitted, and the
record is returned with balance 264. -/
theorem claim_C5_amended :
    parseTransactionSegment (toChars ("Handel Test 236,00 € 264,00 €"))
        ⟨2021, 3, 21⟩ ALL_TYPES (some 500) =
      { date := ⟨2021, 3, 21⟩, type := toChars ("Handel")
        description := some (toChars ("Test"))
        received := none, spent := some 236, balance := 264 } ∧
    validateBalance
      (parseTransactionSegment (toChars ("Handel Test 236,00 € 264,00 €"))
        ⟨2021, 3, 21⟩ ALL_TYPES (some 500)) (some 500) = 0 :=
  ⟨by with_unfolding_all rfl, by with_unfolding_all rfl⟩

/-- C4: contrary to the partial-results requirement, the unknown-month
exception escapes processTransactions (and, with no catch anywhere in
the caller chain, the whole parse), discarding the transaction already
extracted from the first four lines; the same four lines alone do yield
that transaction. -/
theorem claim_C4 :
    processTransactions linesBadMonth =
      .error (toChars ("Unknown German month: Xyz.")) ∧
    processTransactions (linesBadMonth.take 4) =
      .ok ([ { date := ⟨2021, 0, 1⟩, type := toChars ("Überweisung")
               description := some (toChars ("Test"))
               received := some 100, spent := none, balance := 100 } ], 0) :=
  ⟨by with_unfolding_all rfl, by with_unfolding_all rfl⟩

/-! Round-trip lemmas for line splitting and joining. -/

/-- Splitting never yields the empty list. -/
theorem splitNl_ne_nil (s : Str) : splitNl s ≠ [] := by
  induction s with
  | nil => simp [splitNl]
  | cons c rest ih =>
    simp only [splitNl]
    split
    · simp
    · cases h : splitNl rest with
      | nil => exact absurd h ih
      | cons t ts => simp [h]

/-- No line produced by splitting contains a newline. -/
theorem no_nl_of_mem_splitNl (s : Str) : ∀ l ∈ splitNl s, '\n' ∉ l := by
  induction s with
  | nil => simp [splitNl]
  | cons c rest ih =>
    intro l hl
    simp only [splitNl] at hl
    by_cases hc : c = '\n'
    · rw [if_pos hc] at hl
      rcases List.mem_cons.mp hl with hl | hl
      · simp [hl]
      · exact ih l hl
    · rw [if_neg hc] at hl
      cases h : splitNl rest with
      | nil => exact absurd h (splitNl_ne_nil rest)
      | cons t ts =>
        rw [h] at hl
        rcases List.mem_cons.mp hl with hl | hl
        · subst hl
          intro hmem
          rcases List.mem_cons.mp hmem with h1 | h1
          · exact hc h1.symm
          · exact ih t (by simp [h]) h1
        · exact ih l (by simp [h, hl]) 

/-- Splitting a newline-free string gives it back as the only line. -/
theorem splitNl_of_no_nl (x : Str) (hx : '\n' ∉ x) : splitNl x = [x] := by
  induction x with
  | nil => rfl
  | cons c rest ih =>
    have hc : ¬ c = '\n' := fun h => hx (h ▸ List.mem_cons_self c rest)
    have hr : '\n' ∉ rest := fun h => hx (List.mem_cons_of_mem c h)
    simp only [splitNl, if_neg hc, ih hr]

/-- Splitting a newline-free prefix, a newline, and a remainder peels
off the prefix as the first line. -/
theorem splitNl_append (x r : Str) (hx : '\n' ∉ x) :
    splitNl (x ++ '\n' :: r) = x :: splitNl r := by
  induction x with
  | nil => simp [splitNl]
  | cons c rest ih =>
    have hc : ¬ c = '\n' := fun h => hx (h ▸ List.mem_cons_self c rest)
    have hr : '\n' ∉ rest := fun h => hx (List.mem_cons_of_mem c h)
    simp only [List.cons_append, splitNl, if_neg hc, List.append_eq, ih hr]

/-- Splitting after joining newline-free lines is the identity on
non-empty line lists. -/
theorem splitNl_joinNl (ls : List Str) (h : ∀ l ∈ ls, '\n' ∉ l)
    (h2 : ls ≠ []) : splitNl (joinNl ls) = ls := by
  induction ls with
  | nil => exact absurd rfl h2
  | cons x xs ih =>
    cases xs with
    | nil => exact splitNl_of_no_nl x (h x (by simp))
    | cons y ys =>
      have hx : '\n' ∉ x := h x (by simp)
      show splitNl (x ++ '\n' :: joinNl (y :: ys)) = x :: y :: ys
      rw [splitNl_append x _ hx]
      rw [ih (fun l hl => h l (List.mem_cons_of_mem x hl)) (by simp)]

/-- One pass of the per-page sanitizer is enough: its output consists of
newline-free lines that all satisfy the keep predicate, so a second pass
splits, keeps and joins them unchanged. -/
theorem sanitizePage_idem (page : Str) :
    sanitizePage (sanitizePage page) = sanitizePage page := by
  unfold sanitizePage
  cases hk : (splitNl page).filter keepLine with
  | nil => rfl
  | cons a t =>
    rw [← hk]
    have hnl : ∀ l ∈ (splitNl page).filter keepLine, '\n' ∉ l :=
      fun l hl => no_nl_of_mem_splitNl page l (List.mem_of_mem_filter hl)
    have hne : (splitNl page).filter keepLine ≠ [] := by simp [hk]
    rw [splitNl_joinNl _ hnl hne]
    rw [List.filter_filter]
    congr 1
    apply List.filter_congr
    intro l _
    cases keepLine l <;> rfl

/-- C9: the boilerplate sanitizer is idempotent: applying removeHeaders
to its own output yields the same output (and it is a pure function of
its input by construction). -/
theorem claim_C9 (pages : List Str) :
    removeHeaders (removeHeaders pages) = removeHeaders pages := by
  simp only [removeHeaders, List.map_map, Function.comp]
  exact List.map_congr_left (fun p _ => sanitizePage_idem p)

/-- Folding chapterStep over lines that contain no chapter heading
leaves the chapter and the emitted list alone and accumulates exactly
the deduplicated content. -/
theorem foldl_chapterStep_body (body : List Str) :
    ∀ st : ChapterState, (∀ l ∈ body, trimStr l ∉ CHAPTERS) →
    body.foldl chapterStep st =
      { currentChapter := st.currentChapter
        currentContent := st.currentContent ++ dedupT st.headerSeen (body.map trimStr)
        headerSeen := seenAfter st.headerSeen (body.map trimStr)
        emitted := st.emitted } := by
  induction body with
  | nil => intro st _; simp [dedupT, seenAfter]
  | cons l body ih =>
    intro st h
    have hc : trimStr l ∉ CHAPTERS := h l (by simp)
    have hrest : ∀ x ∈ body, trimStr x ∉ CHAPTERS :=
      fun x hx => h x (by simp [hx])
    simp only [List.foldl_cons, List.map_cons]
    by_cases hh : trimStr l ∈ HEADERS
    · cases hs : st.headerSeen with
      | true =>
        have hstep : chapterStep st l = st := by
          simp only [chapterStep]
          rw [if_neg hc, if_pos hh, if_pos hs]
        rw [hstep, ih st hrest, hs]
        simp [dedupT, seenAfter, hh]
      | false =>
        have hstep : chapterStep st l =
            { st with currentContent := st.currentContent ++ [trimStr l]
                      headerSeen := true } := by
          simp only [chapterStep]
          rw [if_neg hc, if_pos hh, if_neg (by simp [hs])]
        rw [hstep, ih _ hrest]
        simp [dedupT, seenAfter, hh, hs]
    · by_cases he : trimStr l ≠ []
      · have hstep : chapterStep st l =
            { st with currentContent := st.currentContent ++ [trimStr l] } := by
          simp only [chapterStep]
          rw [if_neg hc, if_neg hh, if_pos he]
        rw [hstep, ih _ hrest]
        simp [dedupT, seenAfter, hh, he]
      · have hstep : chapterStep st l = st := by
          simp only [chapterStep]
          rw [if_neg hc, if_neg hh, if_neg he]
        rw [hstep, ih st hrest]
        simp only [dedupT, seenAfter]
        rw [if_neg hh, if_neg he]
        simp [hh]

/-- With the flag already set, the body contributes its non-empty
non-header lines. -/
theorem dedupT_true_eq_filter (bt : List Str) :
    dedupT true bt = bt.filter (fun x => decide (x ∉ HEADERS ∧ x ≠ [])) := by
  induction bt with
  | nil => rfl
  | cons t rest ih =>
    simp only [dedupT, List.filter_cons]
    by_cases hh : t ∈ HEADERS
    · rw [if_pos hh]
      simp [hh, ih]
    · rw [if_neg hh]
      by_cases he : t ≠ []
      · rw [if_pos he]
        simp [hh, he, ih]
      · rw [if_neg he]
        simp [hh, he, ih]

/-- With the flag down, the body up to its first header line contributes
its non-empty lines, then the header is kept and the flag goes up. -/
theorem dedupT_false_decomp (A B : List Str) (h : Str)
    (hA : ∀ x ∈ A, x ∉ HEADERS) (hh : h ∈ HEADERS) :
    dedupT false (A ++ h :: B) =
      A.filter (fun x => decide (x ≠ [])) ++ h :: dedupT true B := by
  induction A with
  | nil =>
    simp only [List.nil_append, dedupT, List.filter_nil]
    rw [if_pos hh, if_neg (by simp)]
  | cons a A ih =>
    have ha : a ∉ HEADERS := hA a (by simp)
    have hrest : ∀ x ∈ A, x ∉ HEADERS := fun x hx => hA x (by simp [hx])
    simp only [List.cons_append, dedupT, List.filter_cons]
    rw [if_neg ha]
    by_cases he : a ≠ []
    · rw [if_pos he]
      simp [he, ih hrest]
    · rw [if_neg he]
      simp [he, ih hrest]

/-- Splitting a list at the first occurrence of a member. -/
theorem first_occurrence_split (bt : List Str) (h : Str) (hmem : h ∈ bt) :
    ∃ A B, bt = A ++ h :: B ∧ ∀ x ∈ A, x ≠ h := by
  induction bt with
  | nil => cases hmem
  | cons t rest ih =>
    by_cases ht : t = h
    · exact ⟨[], rest, by simp [ht], by simp⟩
    · have hmem2 : h ∈ rest := by
        rcases List.mem_cons.mp hmem with h1 | h1
        · exact absurd h1.symm ht
        · exact h1
      obtain ⟨A, B, hAB, hA⟩ := ih hmem2
      exact ⟨t :: A, B, by simp [hAB],
        fun x hx => by
          rcases List.mem_cons.mp hx with h1 | h1
          · exact h1 ▸ ht
          · exact hA x h1⟩

/-- The deduplicated content of a single-header-string chapter body
contains that header exactly once. -/
theorem count_dedup_one (A B : List Str) (h : Str) (hh : h ∈ HEADERS)
    (hA : ∀ x ∈ A, x ∉ HEADERS) :
    (A.filter (fun x => decide (x ≠ [])) ++ h :: dedupT true B).count h = 1 := by
  rw [List.count_append, List.count_cons_self]
  have h1 : (A.filter (fun x => decide (x ≠ []))).count h = 0 := by
    rw [List.count_eq_zero]
    intro hmem
    exact hA h (List.mem_of_mem_filter hmem) hh
  have h2 : (dedupT true B).count h = 0 := by
    rw [dedupT_true_eq_filter, List.count_eq_zero]
    intro hmem
    have := List.of_mem_filter hmem
    simp at this
    exact this.1 hh
  omega

/-- C8 as stated is false on the code: the header-seen flag is per
chapter, not per header string, so in a chapter whose lines hold
HEADER_CASH first and HEADER_TRANSACTIONS twice afterwards, the emitted
content contains HEADER_TRANSACTIONS zero times, not exactly once. -/
theorem claim_C8_counterexample :
    linesTwoHeaders.count HEADER_TRANSACTIONS = 2 ∧
    ((processChapters [joinNl linesTwoHeaders]).getD 0 ([], [])).1 =
      CHAPTER_TRANSACTIONS_OVERVIEW ∧
    ¬ ((processChapters [joinNl linesTwoHeaders]).getD 0 ([], [])).2.count
        HEADER_TRANSACTIONS = 1 ∧
    ((processChapters [joinNl linesTwoHeaders]).getD 0 ([], [])).2.count
        HEADER_TRANSACTIONS = 0 := by
  refine ⟨by decide, by decide, ?_, by decide⟩
  intro h1
  have h0 : ((processChapters [joinNl linesTwoHeaders]).getD 0 ([], [])).2.count
      HEADER_TRANSACTIONS = 0 := by decide
  omega

/-- C8 amended: the header-seen flag is per chapter, so the claim holds
for chapters whose header lines are all occurrences of one single header
string h.  For two consecutive such chapters, h occurring at least twice
in the first body and at least once in the second, each emitted chapter
content contains h exactly once, at the first header occurrence of its
body (the kept h is preceded exactly by the non-empty lines before that
occurrence), the heading line between the chapters having reset the
flag. -/
theorem claim_C8 (pages : List Str) (ch1 : Str) (body1 : List Str)
    (ch2 : Str) (body2 : List Str) (h : Str)
    (hflat : (pages.map splitNl).flatten = ch1 :: body1 ++ ch2 :: body2)
    (hch1 : trimStr ch1 ∈ CHAPTERS) (hch2 : trimStr ch2 ∈ CHAPTERS)
    (hb1 : ∀ l ∈ body1, trimStr l ∉ CHAPTERS)
    (hb2 : ∀ l ∈ body2, trimStr l ∉ CHAPTERS)
    (hh : h ∈ HEADERS)
    (hone1 : ∀ l ∈ body1, trimStr l ∈ HEADERS → trimStr l = h)
    (hone2 : ∀ l ∈ body2, trimStr l ∈ HEADERS → trimStr l = h)
    (hc1 : 2 ≤ (body1.map trimStr).count h)
    (hc2 : 1 ≤ (body2.map trimStr).count h) :
    ∃ A B C D : List Str,
      body1.map trimStr = A ++ h :: B ∧ (∀ x ∈ A, x ∉ HEADERS) ∧
      body2.map trimStr = C ++ h :: D ∧ (∀ x ∈ C, x ∉ HEADERS) ∧
      processChapters pages =
        [ (trimStr ch1, A.filter (fun x => decide (x ≠ [])) ++ h :: dedupT true B)
        , (trimStr ch2, C.filter (fun x => decide (x ≠ [])) ++ h :: dedupT true D) ] ∧
      (A.filter (fun x => decide (x ≠ [])) ++ h :: dedupT true B).count h = 1 ∧
      (C.filter (fun x => decide (x ≠ [])) ++ h :: dedupT true D).count h = 1 := by
  have hmem1 : h ∈ body1.map trimStr := by
    by_contra hcon
    rw [List.count_eq_zero_of_not_mem hcon] at hc1
    omega
  have hmem2 : h ∈ body2.map trimStr := by
    by_contra hcon
    rw [List.count_eq_zero_of_not_mem hcon] at hc2
    omega
  obtain ⟨A, B, hAB, hAne⟩ := first_occurrence_split _ h hmem1
  obtain ⟨C, D, hCD, hCne⟩ := first_occurrence_split _ h hmem2
  have hA : ∀ x ∈ A, x ∉ HEADERS := by
    intro x hx hxh
    have hxb : x ∈ body1.map trimStr := by rw [hAB]; simp [hx]
    obtain ⟨l, hl, hlx⟩ := List.mem_map.mp hxb
    exact hAne x hx (hlx ▸ hone1 l hl (hlx ▸ hxh))
  have hC : ∀ x ∈ C, x ∉ HEADERS := by
    intro x hx hxh
    have hxb : x ∈ body2.map trimStr := by rw [hCD]; simp [hx]
    obtain ⟨l, hl, hlx⟩ := List.mem_map.mp hxb
    exact hCne x hx (hlx ▸ hone2 l hl (hlx ▸ hxh))
  refine ⟨A, B, C, D, hAB, hA, hCD, hC, ?_, count_dedup_one A B h hh hA,
    count_dedup_one C D h hh hC⟩
  have hdecomp1 : dedupT false (body1.map trimStr) =
      A.filter (fun x => decide (x ≠ [])) ++ h :: dedupT true B := by
    rw [hAB]; exact dedupT_false_decomp A B h hA hh
  have hdecomp2 : dedupT false (body2.map trimStr) =
      C.filter (fun x => decide (x ≠ [])) ++ h :: dedupT true D := by
    rw [hCD]; exact dedupT_false_decomp C D h hC hh
  unfold processChapters
  rw [hflat]
  dsimp only
  simp only [List.foldl_append, List.foldl_cons]
  have hstep1 : chapterStep ⟨CHAPTER_ACCOUNT_HOLDER, [], false, []⟩ ch1 =
      ⟨trimStr ch1, [], false, []⟩ := by
    simp only [chapterStep]
    rw [if_pos hch1]
    simp
  rw [hstep1,
    foldl_chapterStep_body body1 ⟨trimStr ch1, [], false, []⟩ hb1]
  have hne1 : ([] : List Str) ++ dedupT false (body1.map trimStr) ≠ [] := by
    rw [List.nil_append, hdecomp1]
    simp
  have hstep2 : chapterStep
      ⟨trimStr ch1, [] ++ dedupT false (body1.map trimStr),
        seenAfter false (body1.map trimStr), []⟩ ch2 =
      ⟨trimStr ch2, [], false,
        [(trimStr ch1, [] ++ dedupT false (body1.map trimStr))]⟩ := by
    dsimp only [chapterStep]
    rw [if_pos hch2, if_pos hne1]
    simp
  rw [hstep2,
    foldl_chapterStep_body body2 ⟨trimStr ch2, [], false,
      [(trimStr ch1, [] ++ dedupT false (body1.map trimStr))]⟩ hb2]
  have hne2 : ([] : List Str) ++ dedupT false (body2.map trimStr) ≠ [] := by
    rw [List.nil_append, hdecomp2]
    simp
  simp only []
  rw [if_pos hne2]
  rw [List.nil_append, List.nil_append, hdecomp1, hdecomp2]
  rfl

/-- Witness for C8: the amended statement at a concrete two-chapter
page. -/
theorem claim_C8_witness :
    2 ≤ (chapterBody1.map trimStr).count HEADER_TRANSACTIONS ∧
    1 ≤ (chapterBody2.map trimStr).count HEADER_TRANSACTIONS ∧
    ∃ A B C D : List Str,
      chapterBody1.map trimStr = A ++ HEADER_TRANSACTIONS :: B ∧
      (∀ x ∈ A, x ∉ HEADERS) ∧
      chapterBody2.map trimStr = C ++ HEADER_TRANSACTIONS :: D ∧
      (∀ x ∈ C, x ∉ HEADERS) ∧
      processChapters pagesTwoChapters =
        [ (trimStr CHAPTER_TRANSACTIONS_OVERVIEW,
            A.filter (fun x => decide (x ≠ [])) ++
              HEADER_TRANSACTIONS :: dedupT true B)
        , (trimStr CHAPTER_NOTES,
            C.filter (fun x => decide (x ≠ [])) ++
              HEADER_TRANSACTIONS :: dedupT true D) ] ∧
      (A.filter (fun x => decide (x ≠ [])) ++
        HEADER_TRANSACTIONS :: dedupT true B).count HEADER_TRANSACTIONS = 1 ∧
      (C.filter (fun x => decide (x ≠ [])) ++
        HEADER_TRANSACTIONS :: dedupT true D).count HEADER_TRANSACTIONS = 1 :=
  ⟨by decide, by decide,
    claim_C8 pagesTwoChapters CHAPTER_TRANSACTIONS_OVERVIEW chapterBody1
      CHAPTER_NOTES chapterBody2 HEADER_TRANSACTIONS
      (by decide) (by decide) (by decide) (by decide) (by decide)
      (by decide) (by decide) (by decide) (by decide) (by decide)⟩

/-- In the two-line shape with a known month, the scanner returns the
anchor with the leftover text, resuming at the year line. -/
theorem tryParseDate_two_some (lines : List Str) (index : Nat)
    (day month year : Str) (restToks : List Str) (m : Nat)
    (hc : caseTwoLine lines index day month year restToks)
    (hm : lookupMonth month = some m) :
    tryParseDate lines index =
      .ok (some ⟨⟨intOfDigits year, m, intOfDigits day⟩, index + 1,
        if restToks = [] then none else some (joinSp restToks)⟩) := by
  obtain ⟨h1, h2, h3, h4, h5, h6⟩ := hc
  have hidx : index < lines.length := Nat.lt_of_succ_lt h1
  unfold tryParseDate
  rw [if_pos hidx, h2]
  dsimp only
  rw [h3, h5]
  simp only [h4, h1, decide_eq_true_eq, Bool.and_self, if_true]
  simp only [decide_eq_true_eq, h1, Bool.and_true, Bool.true_and, if_true, h6,
    toJSDate, hm]

/-- In the two-line shape with a pattern-matching but unknown month,
the scanner throws. -/
theorem tryParseDate_two_err (lines : List Str) (index : Nat)
    (day month year : Str) (restToks : List Str)
    (hc : caseTwoLine lines index day month year restToks)
    (hm : lookupMonth month = none) :
    tryParseDate lines index =
      .error (toChars ("Unknown German month: ") ++ month) := by
  obtain ⟨h1, h2, h3, h4, h5, h6⟩ := hc
  have hidx : index < lines.length := Nat.lt_of_succ_lt h1
  unfold tryParseDate
  rw [if_pos hidx, h2]
  dsimp only
  rw [h3, h5]
  simp only [h4, h1, decide_eq_true_eq, Bool.and_self, if_true]
  simp only [decide_eq_true_eq, h1, Bool.and_true, Bool.true_and, if_true, h6,
    toJSDate, hm]

/-- In the three-line shape with a known month, the scanner returns the
anchor with no leftover text, resuming after the year line. -/
theorem tryParseDate_three_some (lines : List Str) (index : Nat)
    (day month year : Str) (m : Nat)
    (hc : caseThreeLine lines index day month year)
    (hm : lookupMonth month = some m) :
    tryParseDate lines index =
      .ok (some ⟨⟨intOfDigits year, m, intOfDigits day⟩, index + 3, none⟩) := by
  obtain ⟨h1, h2, h3, h4, h5, h6, h7⟩ := hc
  have hidx : index < lines.length := by omega
  unfold tryParseDate
  rw [if_pos hidx, h2]
  dsimp only
  rw [h4, h6]
  simp only [h3, h1, h5, h7, decide_eq_true_eq, Bool.and_self, if_true]
  simp only [decide_eq_true_eq, h1, Bool.and_true, Bool.true_and, if_true,
    toJSDate, hm]

/-- In the three-line shape with a pattern-matching but unknown month,
the scanner throws. -/
theorem tryParseDate_three_err (lines : List Str) (index : Nat)
    (day month year : Str)
    (hc : caseThreeLine lines index day month year)
    (hm : lookupMonth month = none) :
    tryParseDate lines index =
      .error (toChars ("Unknown German month: ") ++ month) := by
  obtain ⟨h1, h2, h3, h4, h5, h6, h7⟩ := hc
  have hidx : index < lines.length := by omega
  unfold tryParseDate
  rw [if_pos hidx, h2]
  dsimp only
  rw [h4, h6]
  simp only [h3, h1, h5, h7, decide_eq_true_eq, Bool.and_self, if_true]
  simp only [decide_eq_true_eq, h1, Bool.and_true, Bool.true_and, if_true,
    toJSDate, hm]

/-- toJSDate succeeds exactly on known months, with the evident value. -/
theorem toJSDate_ok (y mo d : Str) (dt : SimpleDate) :
    toJSDate y mo d = .ok dt ↔
      ∃ m, lookupMonth mo = some m ∧
        dt = ⟨intOfDigits y, m, intOfDigits d⟩ := by
  unfold toJSDate
  cases h : lookupMonth mo with
  | some m => simp [h, eq_comm]
  | none => simp [h]

/-- toJSDate throws exactly on unknown months. -/
theorem toJSDate_err (y mo d : Str) (e : Str) :
    toJSDate y mo d = .error e ↔
      lookupMonth mo = none ∧ e = toChars ("Unknown German month: ") ++ mo := by
  unfold toJSDate
  cases h : lookupMonth mo with
  | some m => simp [h]
  | none => simp [h, eq_comm]

/-- Exhaustive case analysis of the scanner: either no match, or one of
the two layouts holds, with the month known or unknown. -/
theorem tryParseDate_master (lines : List Str) (index : Nat) :
    tryParseDate lines index = .ok none ∨
    (∃ day month year restToks m,
      caseTwoLine lines index day month year restToks ∧
      lookupMonth month = some m) ∨
    (∃ day month year restToks,
      caseTwoLine lines index day month year restToks ∧
      lookupMonth month = none) ∨
    (∃ day month year m,
      caseThreeLine lines index day month year ∧
      lookupMonth month = some m) ∨
    (∃ day month year,
      caseThreeLine lines index day month year ∧
      lookupMonth month = none) := by
  unfold tryParseDate
  split
  · rename_i hidx
    split
    · rename_i parts day month heq
      split
      · rename_i hday
        split
        · rename_i hcond
          rw [Bool.and_eq_true] at hcond
          obtain ⟨hmon, hlen⟩ := hcond
          have hlen2 : index + 1 < lines.length := of_decide_eq_true hlen
          split
          · rename_i parts2 year rest heq2
            split
            · rename_i hyear
              split
              · rename_i res dt heqd
                obtain ⟨m, hm, _⟩ := (toJSDate_ok _ _ _ _).mp heqd
                exact Or.inr (Or.inl
                  ⟨day, month, year, rest, m,
                    ⟨hlen2, heq, hday, hmon, heq2, hyear⟩, hm⟩)
              · rename_i res e heqd
                obtain ⟨hm, -⟩ := (toJSDate_err _ _ _ _).mp heqd
                exact Or.inr (Or.inr (Or.inl
                  ⟨day, month, year, rest,
                    ⟨hlen2, heq, hday, hmon, heq2, hyear⟩, hm⟩))
            · exact Or.inl rfl
          · exact Or.inl rfl
        · exact Or.inl rfl
      · exact Or.inl rfl
    · rename_i parts day heq
      split
      · rename_i hcond
        rw [Bool.and_eq_true] at hcond
        obtain ⟨hday, hlen⟩ := hcond
        have hlen2 : index + 2 < lines.length := of_decide_eq_true hlen
        dsimp only
        split
        · rename_i hcond2
          rw [Bool.and_eq_true] at hcond2
          obtain ⟨hmon, hyear⟩ := hcond2
          split
          · rename_i res dt heqd
            obtain ⟨m, hm, -⟩ := (toJSDate_ok _ _ _ _).mp heqd
            exact Or.inr (Or.inr (Or.inr (Or.inl
              ⟨day, trimStr (lines.getD (index + 1) []),
                trimStr (lines.getD (index + 2) []), m,
                ⟨hlen2, heq, hday, rfl, hmon, rfl, hyear⟩, hm⟩)))
          · rename_i res e heqd
            obtain ⟨hm, -⟩ := (toJSDate_err _ _ _ _).mp heqd
            exact Or.inr (Or.inr (Or.inr (Or.inr
              ⟨day, trimStr (lines.getD (index + 1) []),
                trimStr (lines.getD (index + 2) []),
                ⟨hlen2, heq, hday, rfl, hmon, rfl, hyear⟩, hm⟩)))
        · exact Or.inl rfl
      · exact Or.inl rfl
    · exact Or.inl rfl
  · exact Or.inl rfl

/-- C3 as stated is false on the code: on a two-line input whose month
token matches the month-token shape but is not a known German month, all
the conditions of the two-line layout hold, yet the scanner returns no
anchor at all — it throws the unknown-month error instead. -/
theorem claim_C3_counterexample :
    jsTrimSplit (([toChars ("1 Xyz."), toChars ("2021")] : List Str).getD 0 []) =
      [toChars ("1"), toChars ("Xyz.")] ∧
    isDayTok (toChars ("1")) = true ∧
    isMonthTok (toChars ("Xyz.")) = true ∧
    jsTrimSplit (([toChars ("1 Xyz."), toChars ("2021")] : List Str).getD 1 []) =
      [toChars ("2021")] ∧
    isYearTok (toChars ("2021")) = true ∧
    tryParseDate [toChars ("1 Xyz."), toChars ("2021")] 0 =
      .error (toChars ("Unknown German month: Xyz.")) ∧
    ∀ r : DateParseResult,
      tryParseDate [toChars ("1 Xyz."), toChars ("2021")] 0 ≠ .ok (some r) := by
  refine ⟨by decide, by decide, by decide, by decide, by decide, rfl, ?_⟩
  intro r hr
  rw [show tryParseDate [toChars ("1 Xyz."), toChars ("2021")] 0 =
    .error (toChars ("Unknown German month: Xyz.")) from rfl] at hr
  exact Except.noConfusion hr

/-- C3 amended: the scanner returns an anchor exactly in the two-line
and three-line layouts with the month token additionally present in the
closed German month table (with the leftover text and resume index the
claim describes); in either layout with a month token that matches the
month pattern but is absent from the table it raises the unknown-month
error instead of returning; and for every other input it returns no
match (and, being a pure function of the line list and index, consumes
nothing). -/
theorem claim_C3 (lines : List Str) (index : Nat) :
    (∀ r : DateParseResult,
      tryParseDate lines index = .ok (some r) ↔
        ((∃ day month year restToks m,
            caseTwoLine lines index day month year restToks ∧
            lookupMonth month = some m ∧
            r = ⟨⟨intOfDigits year, m, intOfDigits day⟩, index + 1,
              if restToks = [] then none else some (joinSp restToks)⟩) ∨
         (∃ day month year m,
            caseThreeLine lines index day month year ∧
            lookupMonth month = some m ∧
            r = ⟨⟨intOfDigits year, m, intOfDigits day⟩, index + 3, none⟩))) ∧
    ((∃ e, tryParseDate lines index = .error e) ↔
      ((∃ day month year restToks,
          caseTwoLine lines index day month year restToks ∧
          lookupMonth month = none) ∨
       (∃ day month year,
          caseThreeLine lines index day month year ∧
          lookupMonth month = none))) ∧
    (tryParseDate lines index = .ok none ↔
      ¬ ((∃ day month year restToks,
            caseTwoLine lines index day month year restToks) ∨
         (∃ day month year, caseThreeLine lines index day month year))) := by
  refine ⟨?_, ⟨?_, ?_⟩, ⟨?_, ?_⟩⟩
  · intro r
    constructor
    · intro hr
      rcases tryParseDate_master lines index with h0 |
        ⟨d, mo, y, rt, m, hc, hm⟩ | ⟨d, mo, y, rt, hc, hm⟩ |
        ⟨d, mo, y, m, hc, hm⟩ | ⟨d, mo, y, hc, hm⟩
      · rw [h0] at hr
        simp at hr
      · have he := tryParseDate_two_some lines index d mo y rt m hc hm
        rw [he] at hr
        refine Or.inl ⟨d, mo, y, rt, m, hc, hm, ?_⟩
        have := (Except.ok.injEq _ _ ▸ hr)
        simpa using this.symm
      · rw [tryParseDate_two_err lines index d mo y rt hc hm] at hr
        exact Except.noConfusion hr
      · have he := tryParseDate_three_some lines index d mo y m hc hm
        rw [he] at hr
        refine Or.inr ⟨d, mo, y, m, hc, hm, ?_⟩
        have := (Except.ok.injEq _ _ ▸ hr)
        simpa using this.symm
      · rw [tryParseDate_three_err lines index d mo y hc hm] at hr
        exact Except.noConfusion hr
    · rintro (⟨d, mo, y, rt, m, hc, hm, hrr⟩ | ⟨d, mo, y, m, hc, hm, hrr⟩)
      · rw [hrr]
        exact tryParseDate_two_some lines index d mo y rt m hc hm
      · rw [hrr]
        exact tryParseDate_three_some lines index d mo y m hc hm
  · rintro ⟨e, he⟩
    rcases tryParseDate_master lines index with h0 |
      ⟨d, mo, y, rt, m, hc, hm⟩ | ⟨d, mo, y, rt, hc, hm⟩ |
      ⟨d, mo, y, m, hc, hm⟩ | ⟨d, mo, y, hc, hm⟩
    · rw [h0] at he
      exact Except.noConfusion he
    · rw [tryParseDate_two_some lines index d mo y rt m hc hm] at he
      exact Except.noConfusion he
    · exact Or.inl ⟨d, mo, y, rt, hc, hm⟩
    · rw [tryParseDate_three_some lines index d mo y m hc hm] at he
      exact Except.noConfusion he
    · exact Or.inr ⟨d, mo, y, hc, hm⟩
  · rintro (⟨d, mo, y, rt, hc, hm⟩ | ⟨d, mo, y, hc, hm⟩)
    · exact ⟨_, tryParseDate_two_err lines index d mo y rt hc hm⟩
    · exact ⟨_, tryParseDate_three_err lines index d mo y hc hm⟩
  · intro h0
    rintro (⟨d, mo, y, rt, hc⟩ | ⟨d, mo, y, hc⟩)
    · cases hm : lookupMonth mo with
      | some m =>
        rw [tryParseDate_two_some lines index d mo y rt m hc hm] at h0
        simp at h0
      | none =>
        rw [tryParseDate_two_err lines index d mo y rt hc hm] at h0
        exact Except.noConfusion h0
    · cases hm : lookupMonth mo with
      | some m =>
        rw [tryParseDate_three_some lines index d mo y m hc hm] at h0
        simp at h0
      | none =>
        rw [tryParseDate_three_err lines index d mo y hc hm] at h0
        exact Except.noConfusion h0
  · intro hn
    rcases tryParseDate_master lines index with h0 |
      ⟨d, mo, y, rt, m, hc, hm⟩ | ⟨d, mo, y, rt, hc, hm⟩ |
      ⟨d, mo, y, m, hc, hm⟩ | ⟨d, mo, y, hc, hm⟩
    · exact h0
    · exact absurd (Or.inl ⟨d, mo, y, rt, hc⟩) hn
    · exact absurd (Or.inl ⟨d, mo, y, rt, hc⟩) hn
    · exact absurd (Or.inr ⟨d, mo, y, hc⟩) hn
    · exact absurd (Or.inr ⟨d, mo, y, hc⟩) hn

/-- Witness for C3: the characterisation applied at a concrete two-line
input with leftover text, producing the anchor. -/
theorem claim_C3_witness :
    tryParseDate [toChars ("09 Juli"), toChars ("2021 Rest hier")] 0 =
      .ok (some ⟨⟨2021, 6, 9⟩, 1, some (toChars ("Rest hier"))⟩) :=
  ((claim_C3 [toChars ("09 Juli"), toChars ("2021 Rest hier")] 0).1
    ⟨⟨2021, 6, 9⟩, 1, some (toChars ("Rest hier"))⟩).mpr
    (Or.inl ⟨toChars ("09"), toChars ("Juli"), toChars ("2021"),
      [toChars ("Rest"), toChars ("hier")], 6,
      ⟨by decide, by decide, by decide, by decide, by decide, by decide⟩,
      by decide, by decide⟩)

end ExportRepublic
